import Mathlib

/-!
A shallow embedding of the line-processing and execution pipeline of the
`codecrafters-shell-python` repository (source: `app/main.py`), together with
theorems checking the repository's design document against it.

Conventions of the embedding:
* The filesystem is an association list from path strings to entries
  (regular file with contents, or directory).  Python filesystem calls
  (`os.makedirs`, `open` in `"w"`/`"a"` mode) become total Lean functions
  returning `Except String _`, where the `.error` case stands for the Python
  exception raised at that call site.
* `shlex.split` (POSIX mode) is embedded as a character-level state machine
  `shlexRun`; a `ValueError` becomes `.error` with the exception's message.
* The `PATH` lookup (`find_executable`) and the set of executables visible to
  the completion engine are I/O and are passed in as parameters
  (`resolve : String → Option String`, `externals : List String`).
* `subprocess.run` is external to the program; its possible failure is passed
  in as `spawnErr : Option String` (the exception text, `none` = child ran to
  completion).  The child's own writes are outside the program and not
  modelled.
* An exception that the Python code does not catch becomes an explicit
  `crash` outcome of the REPL-iteration function `processLine`.
-/

/-! ## Filesystem model -/

inductive FSEntry where
  | file (content : String)
  | dir
deriving DecidableEq, Repr

abbrev FS := List (String × FSEntry)

def getEntry : FS → String → Option FSEntry
  | [], _ => none
  | (q, e) :: rest, p => if q = p then some e else getEntry rest p

def setEntry : FS → String → FSEntry → FS
  | [], p, e => [(p, e)]
  | (q, e0) :: rest, p, e =>
      if q = p then (q, e) :: rest else (q, e0) :: setEntry rest p e

/-- `os.path.dirname`: everything before the last `/` (trailing slashes
stripped unless the result is all slashes); `""` when there is no slash. -/
def dirname (p : String) : String :=
  let cs := p.toList
  match cs.reverse.findIdx? (· = '/') with
  | none => ""
  | some k =>
      let head := cs.take (cs.length - k)
      if head.all (· = '/') then String.mk head
      else String.mk ((head.reverse.dropWhile (· = '/')).reverse)

/-- `os.makedirs(p, exist_ok=True)` on the flat-path filesystem model:
raises on the empty path (`FileNotFoundError`) and when `p` is an existing
regular file (`FileExistsError`); succeeds when `p` is already a directory
or absent (creating it). -/
def makedirsFS (fs : FS) (p : String) : Except String FS :=
  if p = "" then .error "FileNotFoundError: \x27\x27"
  else
    match getEntry fs p with
    | some FSEntry.dir => .ok fs
    | some (FSEntry.file _) => .error ("FileExistsError: " ++ p)
    | none => .ok (setEntry fs p FSEntry.dir)

/-- Python `open(p, "w")` (`append = false`) or `open(p, "a")`
(`append = true`): raises when the parent directory is missing or when `p`
is a directory; otherwise creates the file if absent, and truncates it in
`"w"` mode. -/
def openFileFS (fs : FS) (p : String) (append : Bool) : Except String FS :=
  if dirname p ≠ "" ∧ getEntry fs (dirname p) ≠ some FSEntry.dir then
    .error ("FileNotFoundError: " ++ p)
  else
    match getEntry fs p with
    | some FSEntry.dir => .error ("IsADirectoryError: " ++ p)
    | some (FSEntry.file _) =>
        .ok (if append then fs else setEntry fs p (FSEntry.file ""))
    | none => .ok (setEntry fs p (FSEntry.file ""))

/-- `open(p, mode)` followed by `f.write(text)`: the file ends with its
prior content (in append mode) or nothing (in overwrite mode) followed by
`text`. -/
def writeFileFS (fs : FS) (p : String) (append : Bool) (text : String) :
    Except String FS :=
  match openFileFS fs p append with
  | .error e => .error e
  | .ok fs1 =>
      let old := match getEntry fs1 p with
        | some (FSEntry.file c) => c
        | _ => ""
      .ok (setEntry fs1 p (FSEntry.file (old ++ text)))

/-! ## String helpers (kernel-reducible models of the Python `str` methods) -/

def isSpaceChar (c : Char) : Bool :=
  c = ' ' ∨ c = '\t' ∨ c = '\n' ∨ c = '\r' ∨ c = '\x0b' ∨ c = '\x0c'

/-- Python `str.strip()` with the default whitespace set. -/
def pyStrip (s : String) : String :=
  String.mk (((s.toList.dropWhile isSpaceChar).reverse.dropWhile isSpaceChar).reverse)

def listIsInit : List Char → List Char → Bool
  | [], _ => true
  | _ :: _, [] => false
  | a :: as, b :: bs => a = b && listIsInit as bs

/-- Python `s.startswith(p)`. -/
def startsWithStr (s p : String) : Bool :=
  listIsInit p.toList s.toList

/-- Python `s.endswith("\n")`. -/
def endsWithNl (s : String) : Bool :=
  match s.toList.getLast? with
  | some c => c = '\n'
  | none => false

/-! ## Tokenizer: `shlex.split` in POSIX mode -/

inductive LexMode where
  | norm
  | single
  | double
  | escN
  | escD
deriving DecidableEq, Repr

/-- Character-level state machine of `shlex.split(s)` (POSIX mode,
whitespace splitting): single quotes take everything literally, double
quotes let a backslash escape only `\` and `"` (keeping the backslash
otherwise), an unquoted backslash escapes the next character, and
whitespace separates tokens.  An unterminated quote raises
`ValueError("No closing quotation")`, a trailing escape raises
`ValueError("No escaped character")`. -/
def shlexRun : List Char → LexMode → List Char → Bool → Except String (List String)
  | [], .norm, cur, inTok =>
      .ok (if inTok then [String.mk cur.reverse] else [])
  | [], .escN, _, _ => .error "No escaped character"
  | [], .escD, _, _ => .error "No escaped character"
  | [], .single, _, _ => .error "No closing quotation"
  | [], .double, _, _ => .error "No closing quotation"
  | c :: rest, .norm, cur, inTok =>
      if isSpaceChar c then
        if inTok then
          match shlexRun rest .norm [] false with
          | .error e => .error e
          | .ok ts => .ok (String.mk cur.reverse :: ts)
        else shlexRun rest .norm [] false
      else if c = '\x27' then shlexRun rest .single cur true
      else if c = '"' then shlexRun rest .double cur true
      else if c = '\\' then shlexRun rest .escN cur true
      else shlexRun rest .norm (c :: cur) true
  | c :: rest, .single, cur, _ =>
      if c = '\x27' then shlexRun rest .norm cur true
      else shlexRun rest .single (c :: cur) true
  | c :: rest, .double, cur, _ =>
      if c = '"' then shlexRun rest .norm cur true
      else if c = '\\' then shlexRun rest .escD cur true
      else shlexRun rest .double (c :: cur) true
  | c :: rest, .escN, cur, _ => shlexRun rest .norm (c :: cur) true
  | c :: rest, .escD, cur, _ =>
      if c = '"' ∨ c = '\\' then shlexRun rest .double (c :: cur) true
      else shlexRun rest .double (c :: '\\' :: cur) true

def shlexSplit (s : String) : Except String (List String) :=
  shlexRun s.toList .norm [] false

/-! ## Builtin table and `type` -/

/-- `BUILTIN_COMMANDS` of `app/main.py` (note: no `history`). -/
def BUILTIN_COMMANDS : List String := ["exit", "echo", "type", "pwd", "cd"]

/-- The output string computed by the `type` builtin (`app/main.py`,
lines 284–292); `resolve` stands for `find_executable` (a `PATH` scan). -/
def typeMessage (resolve : String → Option String) (target : String) : String :=
  if target ∈ BUILTIN_COMMANDS then target ++ " is a shell builtin"
  else
    match resolve target with
    | some path => target ++ " is " ++ path
    | none => target ++ ": not found"

/-! ## Redirection extractor -/

/-- The six redirection operator tokens recognized by the extractor. -/
def redirOps : List String := ["2>>", "2>", ">>", "1>>", ">", "1>"]

structure Redir where
  target : String
  append : Bool
deriving DecidableEq, Repr

inductive ExtractResult where
  | ok (cmdTokens : List String) (stdoutR stderrR : Option Redir)
  | synErr (msg : String)
  | pyErr
deriving DecidableEq, Repr

/-- The stderr scan of the extractor (`app/main.py`, lines 188–207):
`2>>` is checked before `2>`, the first occurrence of the checked operator
is taken, and a missing following token is the syntax error printed there.
The returned index is the operator's position in the original token list. -/
def scanStderr (parts : List String) : Except String (Option (Nat × Redir)) :=
  if "2>>" ∈ parts then
    let i := parts.indexOf "2>>"
    if i + 1 < parts.length then .ok (some (i, ⟨parts.getD (i + 1) "", true⟩))
    else .error "syntax error: no file after redirection operator"
  else if "2>" ∈ parts then
    let i := parts.indexOf "2>"
    if i + 1 < parts.length then .ok (some (i, ⟨parts.getD (i + 1) "", false⟩))
    else .error "syntax error: no file after redirection operator"
  else .ok none

/-- The stdout scan of the extractor (`app/main.py`, lines 209–232):
the append group (`>>`/`1>>`) is checked before the overwrite group
(`>`/`1>`), and inside each group the index of `1>>` (resp. `1>`) is used
whenever that token is present, else the index of `>>` (resp. `>`). -/
def scanStdout (parts : List String) : Except String (Option (Nat × Redir)) :=
  if ">>" ∈ parts ∨ "1>>" ∈ parts then
    let i := if "1>>" ∈ parts then parts.indexOf "1>>" else parts.indexOf ">>"
    if i + 1 < parts.length then .ok (some (i, ⟨parts.getD (i + 1) "", true⟩))
    else .error "syntax error: no file after redirection operator"
  else if ">" ∈ parts ∨ "1>" ∈ parts then
    let i := if "1>" ∈ parts then parts.indexOf "1>" else parts.indexOf ">"
    if i + 1 < parts.length then .ok (some (i, ⟨parts.getD (i + 1) "", false⟩))
    else .error "syntax error: missing file after >"
  else .ok none

def insertDesc (n : Nat) : List Nat → List Nat
  | [] => [n]
  | m :: ms => if m ≤ n then n :: m :: ms else m :: insertDesc n ms

/-- `tokens_to_remove.sort(reverse=True)`. -/
def sortDesc : List Nat → List Nat
  | [] => []
  | n :: ns => insertDesc n (sortDesc ns)

/-- Python `list.pop(i)`: `none` models the `IndexError` raised when
`i` is out of range. -/
def popAt : List String → Nat → Option (List String)
  | [], _ => none
  | _ :: xs, 0 => some xs
  | x :: xs, n + 1 => (popAt xs n).map (x :: ·)

/-- `for index in tokens_to_remove: parts.pop(index)`. -/
def popAll : List String → List Nat → Option (List String)
  | l, [] => some l
  | l, i :: is =>
      match popAt l i with
      | none => none
      | some l2 => popAll l2 is

/-- The `tokens_to_remove.extend([op_index, op_index + 1])` contribution of
one scan result. -/
def removalPairs : Option (Nat × Redir) → List Nat
  | some (i, _) => [i, i + 1]
  | none => []

/-- The whole redirection extraction block (`app/main.py`, lines 182–238):
both scans run over the original token list, a syntax error in either scan
aborts the line, the collected indices are removed in descending order, and
an out-of-range `pop` is the uncaught `IndexError` (`pyErr`). -/
def extractRedirections (parts : List String) : ExtractResult :=
  match scanStderr parts with
  | .error msg => .synErr msg
  | .ok errScan =>
      match scanStdout parts with
      | .error msg => .synErr msg
      | .ok outScan =>
          match popAll parts
              (sortDesc (removalPairs errScan ++ removalPairs outScan)) with
          | none => .pyErr
          | some remaining =>
              .ok remaining (outScan.map Prod.snd) (errScan.map Prod.snd)

/-! ## Redirection target preparation and `write_output` -/

inductive PrepResult where
  | ok (fs : FS)
  | abort (fs : FS) (msg : String)
  | crash (msg : String)
deriving DecidableEq, Repr

/-- Target preparation for one `RedirectionSpec` (`app/main.py`,
lines 245–253 for stdout, 255–263 for stderr): `os.makedirs` on the
target's parent runs only when the dirname is nonempty and is NOT wrapped
in `try` (its exception crashes the shell); the overwrite-mode
`open(target, "w").close()` IS wrapped, its failure printing
`shell: failed to create file ...` and aborting the line; append mode
touches nothing. -/
def prepareOne (fs : FS) (r : Redir) : PrepResult :=
  let d := dirname r.target
  let fsA : Except String FS := if d ≠ "" then makedirsFS fs d else .ok fs
  match fsA with
  | .error e => .crash e
  | .ok fs1 =>
      if r.append then .ok fs1
      else
        match openFileFS fs1 r.target false with
        | .error e =>
            .abort fs1 ("shell: failed to create file " ++ r.target ++ ": " ++ e)
        | .ok fs2 => .ok fs2

/-- The whole file-and-directory setup block: stdout target first, then
stderr target; an abort in the stdout part skips the stderr part. -/
def prepareTargets (fs : FS) (outR errR : Option Redir) : PrepResult :=
  match outR with
  | none =>
      match errR with
      | none => .ok fs
      | some r => prepareOne fs r
  | some r =>
      match prepareOne fs r with
      | .ok fs1 =>
          match errR with
          | none => .ok fs1
          | some r2 => prepareOne fs1 r2
      | other => other

/-- The `write_output` helper (`app/main.py`, lines 135–152), used by the
`type` and `pwd` builtins: a stdout redirection wins over a stderr one;
either redirected branch calls `os.makedirs(os.path.dirname(target))`
WITHOUT guarding against an empty dirname, opens the target with the
single `append` flag passed by the caller, and writes the text with a
newline appended when missing; with no redirection the text is printed.
The `.error` case is the uncaught exception of that branch. -/
def write_output (fs : FS) (text : String) (outR errR : Option Redir)
    (append : Bool) : Except String (FS × List String) :=
  match outR with
  | some r =>
      match makedirsFS fs (dirname r.target) with
      | .error e => .error e
      | .ok fs1 =>
          match writeFileFS fs1 r.target append
              (text ++ (if endsWithNl text then "" else "\n")) with
          | .error e => .error e
          | .ok fs2 => .ok (fs2, [])
  | none =>
      match errR with
      | some r =>
          match makedirsFS fs (dirname r.target) with
          | .error e => .error e
          | .ok fs1 =>
              match writeFileFS fs1 r.target append
                  (text ++ (if endsWithNl text then "" else "\n")) with
              | .error e => .error e
              | .ok fs2 => .ok (fs2, [])
      | none => .ok (fs, [text])

/-! ## External launcher -/

structure ExtRunResult where
  fs : FS
  printed : List String
  openedOut : Bool
  openedErr : Bool
  closedOut : Bool
  closedErr : Bool
deriving DecidableEq, Repr

/-- The external-program block (`app/main.py`, lines 321–343), with handle
bookkeeping.  Inside one `try`: open the stdout redirection target (mode
`"a"`/`"w"`), open the stderr target, run the child, then close both
handles.  The single `except` prints `Error executing <cmd>: <reason>`;
there is no `finally`, so the close calls run only when no step raised.
`spawnErr` is the exception text of `subprocess.run`, if any. -/
def runExternalProgram (fs : FS) (cmd : String) (outR errR : Option Redir)
    (spawnErr : Option String) : ExtRunResult :=
  let openOut : Except String (FS × Bool) :=
    match outR with
    | some r =>
        match openFileFS fs r.target r.append with
        | .error e => .error e
        | .ok fs1 => .ok (fs1, true)
    | none => .ok (fs, false)
  match openOut with
  | .error e => ⟨fs, ["Error executing " ++ cmd ++ ": " ++ e], false, false, false, false⟩
  | .ok (fs1, oOut) =>
      let openErr : Except String (FS × Bool) :=
        match errR with
        | some r =>
            match openFileFS fs1 r.target r.append with
            | .error e => .error e
            | .ok fs2 => .ok (fs2, true)
        | none => .ok (fs1, false)
      match openErr with
      | .error e => ⟨fs1, ["Error executing " ++ cmd ++ ": " ++ e], oOut, false, false, false⟩
      | .ok (fs2, oErr) =>
          match spawnErr with
          | some reason =>
              ⟨fs2, ["Error executing " ++ cmd ++ ": " ++ reason], oOut, oErr, false, false⟩
          | none => ⟨fs2, [], oOut, oErr, oOut, oErr⟩

/-! ## REPL iteration -/

inductive Outcome where
  | cont (printed : List String)
  | exitSh (code : Int)
  | crash (msg : String)
deriving DecidableEq, Repr

structure ShellSt where
  fs : FS
  cwd : String
deriving DecidableEq, Repr

def stdoutAppendFlag : Option Redir → Bool
  | some r => r.append
  | none => false

/-- One iteration of the REPL loop body of `main()` (`app/main.py`,
lines 161–347) on an already-read line: strip, tokenize, extract
redirections, prepare targets, then dispatch on the first remaining token
through the builtin chain (`exit`, `echo`, `type`, `pwd`, `cd`) and
otherwise resolve and launch an external program.  `resolve` stands for
`find_executable`, `home` for `os.path.expanduser` of `~`, `spawnErr` for
a `subprocess.run` failure.  `Outcome.cont ms` is `continue` after
printing `ms` to the terminal; `Outcome.crash` is an uncaught exception
propagating out of the loop. -/
def processLine (resolve : String → Option String) (home : String)
    (spawnErr : Option String) (line : String) (st : ShellSt) :
    ShellSt × Outcome :=
  let command := pyStrip line
  if command = "" then (st, .cont [])
  else
    match shlexSplit command with
    | .error e => (st, .cont ["Error parsing command: " ++ e])
    | .ok parts0 =>
        if parts0.isEmpty then (st, .cont [])
        else
          match extractRedirections parts0 with
          | .synErr msg => (st, .cont [msg])
          | .pyErr => (st, .crash "IndexError: pop index out of range")
          | .ok parts outR errR =>
              match parts with
              | [] => (st, .cont [])
              | cmd :: rest =>
                  match prepareTargets st.fs outR errR with
                  | .crash e => (st, .crash e)
                  | .abort fs1 msg => ({ st with fs := fs1 }, .cont [msg])
                  | .ok fs1 =>
                      if cmd = "exit" then
                        let code : Int :=
                          match rest with
                          | [] => 0
                          | a :: _ =>
                              match a.toInt? with
                              | some n => n
                              | none => 1
                        ({ st with fs := fs1 }, .exitSh code)
                      else if cmd = "echo" then
                        let msg := String.intercalate " " rest
                        match outR with
                        | some r =>
                            match writeFileFS fs1 r.target r.append
                                (msg ++ (if endsWithNl msg then "" else "\n")) with
                            | .error e => ({ st with fs := fs1 }, .crash e)
                            | .ok fs2 => ({ st with fs := fs2 }, .cont [])
                        | none => ({ st with fs := fs1 }, .cont [msg])
                      else if cmd = "type" then
                        match rest with
                        | [] => ({ st with fs := fs1 }, .cont [])
                        | target :: _ =>
                            match write_output fs1 (typeMessage resolve target)
                                outR errR (stdoutAppendFlag outR) with
                            | .error e => ({ st with fs := fs1 }, .crash e)
                            | .ok (fs2, printed) => ({ st with fs := fs2 }, .cont printed)
                      else if cmd = "pwd" then
                        match write_output fs1 st.cwd outR errR (stdoutAppendFlag outR) with
                        | .error e => ({ st with fs := fs1 }, .crash e)
                        | .ok (fs2, printed) => ({ st with fs := fs2 }, .cont printed)
                      else if cmd = "cd" then
                        match rest with
                        | [] => ({ st with fs := fs1 }, .cont [])
                        | t0 :: _ =>
                            let target :=
                              if t0 = "~" ∨ startsWithStr t0 "~/" then
                                home ++ String.mk (t0.toList.drop 1)
                              else t0
                            if getEntry fs1 target = some FSEntry.dir then
                              ({ fs := fs1, cwd := target }, .cont [])
                            else
                              ({ st with fs := fs1 },
                               .cont ["cd: " ++ target ++ ": No such file or directory"])
                      else
                        match resolve cmd with
                        | some _ =>
                            let r := runExternalProgram fs1 cmd outR errR spawnErr
                            ({ st with fs := r.fs }, .cont r.printed)
                        | none =>
                            ({ st with fs := fs1 },
                             .cont [command ++ ": command not found"])

/-! ## Completion engine -/

/-- Lexicographic code-point comparison of character lists: the order
Python\'s `sorted` uses on strings. -/
def listLe : List Char → List Char → Bool
  | [], _ => true
  | _ :: _, [] => false
  | a :: as, b :: bs =>
      if a.toNat = b.toNat then listLe as bs else decide (a.toNat < b.toNat)

def strLe (a b : String) : Bool :=
  listLe a.toList b.toList

/-- The Prop form of `strLe`, the order `sorted` applies. -/
def strLeP (a b : String) : Prop := strLe a b = true

instance : DecidableRel strLeP := fun a b => instDecidableEqBool (strLe a b) true

instance : IsTotal String strLeP where
  total a b := by
    unfold strLeP strLe
    generalize a.toList = x
    generalize b.toList = y
    induction x generalizing y with
    | nil => exact Or.inl rfl
    | cons c cs ih =>
      cases y with
      | nil => exact Or.inr rfl
      | cons d ds =>
        by_cases h : c.toNat = d.toNat
        · have h2 : d.toNat = c.toNat := h.symm
          simp only [listLe]
          rw [if_pos h, if_pos h2]
          exact ih ds
        · have h2 : ¬ d.toNat = c.toNat := fun e => h e.symm
          simp only [listLe, if_neg h, if_neg h2, decide_eq_true_eq]
          omega

instance : IsTrans String strLeP where
  trans a b c hab hbc := by
    unfold strLeP strLe at hab hbc ⊢
    revert hab hbc
    generalize a.toList = x
    generalize b.toList = y
    generalize c.toList = z
    induction x generalizing y z with
    | nil => intro _ _; rfl
    | cons p ps ih =>
      cases y with
      | nil => intro hab _; simp [listLe] at hab
      | cons q qs =>
        cases z with
        | nil => intro _ hbc; simp [listLe] at hbc
        | cons u us =>
          intro hab hbc
          by_cases h1 : p.toNat = q.toNat <;> by_cases h2 : q.toNat = u.toNat
          · have h3 : p.toNat = u.toNat := h1.trans h2
            simp only [listLe, if_pos h1] at hab
            simp only [listLe, if_pos h2] at hbc
            simp only [listLe, if_pos h3]
            exact ih qs us hab hbc
          · have h3 : ¬ p.toNat = u.toNat := by
              simp only [listLe, if_neg h2, decide_eq_true_eq] at hbc; omega
            simp only [listLe, if_neg h2, decide_eq_true_eq] at hbc
            simp only [listLe, if_neg h3, decide_eq_true_eq]
            omega
          · have h3 : ¬ p.toNat = u.toNat := by
              simp only [listLe, if_neg h1, decide_eq_true_eq] at hab; omega
            simp only [listLe, if_neg h1, decide_eq_true_eq] at hab
            simp only [listLe, if_neg h3, decide_eq_true_eq]
            omega
          · simp only [listLe, if_neg h1, decide_eq_true_eq] at hab
            simp only [listLe, if_neg h2, decide_eq_true_eq] at hbc
            have h3 : ¬ p.toNat = u.toNat := by omega
            simp only [listLe, if_neg h3, decide_eq_true_eq]
            omega

/-- Python `sorted` on a list of strings. -/
def pySortedStrs (l : List String) : List String :=
  List.insertionSort strLeP l

/-- The candidate set computed by `shell_completer` (`app/main.py`,
lines 41–66): builtins with the typed text as a prefix, plus the
executables on `PATH` with that prefix (`externals` abstracts the
directory scan), deduplicated and sorted. -/
def shell_completer_matches (externals : List String) (text : String) :
    List String :=
  let builtin_matches := BUILTIN_COMMANDS.filter (fun c => startsWithStr c text)
  let external_matches := externals.filter (fun c => startsWithStr c text)
  pySortedStrs ((builtin_matches ++ external_matches).dedup)

/-- The completion display hook (`app/main.py`, lines 69–101) as a function
from the consecutive-tab counter to the new counter and the strings written
to the terminal: the incremented counter at 1 writes the bell, at 2 writes a
newline, the two-space-joined matches, and the prompt with the last
completion text; any higher value writes nothing and resets the counter
to 0. -/
def display_matches_hook (ms : List String) (lastText : String)
    (count : Nat) : Nat × List String :=
  let c := count + 1
  let out : List String :=
    if c = 1 then ["\x07"]
    else if c = 2 then
      ["\n", String.intercalate "  " ms ++ "\n", "$ " ++ lastText]
    else []
  (if 2 < c then 0 else c, out)

/-! ## Helper lemmas -/

theorem popAt_length :
    ∀ (l : List String) (i : Nat) (l2 : List String),
      popAt l i = some l2 → l2.length + 1 = l.length := by
  intro l
  induction l with
  | nil => intro i l2 h; simp [popAt] at h
  | cons x xs ih =>
    intro i l2 h
    cases i with
    | zero =>
      simp only [popAt, Option.some.injEq] at h
      subst h
      simp
    | succ n =>
      simp only [popAt, Option.map_eq_some'] at h
      obtain ⟨l3, h3, rfl⟩ := h
      simp [← ih n l3 h3]

theorem popAll_length :
    ∀ (is : List Nat) (l l2 : List String),
      popAll l is = some l2 → l2.length + is.length = l.length := by
  intro is
  induction is with
  | nil =>
    intro l l2 h
    simp only [popAll, Option.some.injEq] at h
    subst h
    simp
  | cons i is2 ih =>
    intro l l2 h
    simp only [popAll] at h
    cases hp : popAt l i with
    | none => rw [hp] at h; simp at h
    | some l3 =>
      rw [hp] at h
      have h1 := ih l3 l2 h
      have h2 := popAt_length l i l3 hp
      simp only [List.length_cons]
      omega

theorem insertDesc_length (n : Nat) :
    ∀ ms : List Nat, (insertDesc n ms).length = ms.length + 1 := by
  intro ms
  induction ms with
  | nil => rfl
  | cons m ms2 ih =>
    simp only [insertDesc]
    split
    · simp
    · simp [ih]

theorem sortDesc_length : ∀ ns : List Nat, (sortDesc ns).length = ns.length := by
  intro ns
  induction ns with
  | nil => rfl
  | cons n ns2 ih => simp [sortDesc, insertDesc_length, ih]

/-! ## Claim theorems -/

/-- Claim C1, counterexample: the claim says `history` runs a builtin that
writes the accepted-line history; on this code `history` is not in
`BUILTIN_COMMANDS`, the dispatch chain has no `history` case, and the line
`history` (with no executable of that name on `PATH`) prints
`history: command not found`. -/
theorem history_claim_counterexample :
    ("history" ∈ BUILTIN_COMMANDS → False) ∧
    processLine (fun _ => none) "/root" none "history" ⟨[], "/"⟩ =
      (⟨[], "/"⟩, Outcome.cont ["history: command not found"]) :=
  ⟨by decide, rfl⟩

/-- Claim C1, amended: the shell has no `history` builtin; a `history` line
is dispatched as an external command, and when it does not resolve on
`PATH` the shell prints `history: command not found` and changes nothing. -/
theorem history_not_a_builtin (st : ShellSt) :
    processLine (fun _ => none) "/root" none "history" st =
      (st, Outcome.cont ["history: command not found"]) := rfl

/-- Claim C2, counterexample: the claim says the builtin table holds exactly
exit, echo, type, pwd, cd and history, with `type` reporting each of the six
as a builtin; on this code `history` is not a member and `type history`
reports `history: not found` when nothing resolves. -/
theorem builtin_table_counterexample :
    ("history" ∈ BUILTIN_COMMANDS → False) ∧
    typeMessage (fun _ => none) "history" = "history: not found" :=
  ⟨by decide, rfl⟩

/-- Claim C2, amended: `BUILTIN_COMMANDS` contains exactly exit, echo,
type, pwd and cd, and for every member `type` writes
`<name> is a shell builtin` regardless of the resolver. -/
theorem builtin_table_exact (resolve : String → Option String) (name : String)
    (h : name ∈ BUILTIN_COMMANDS) :
    BUILTIN_COMMANDS = ["exit", "echo", "type", "pwd", "cd"] ∧
    typeMessage resolve name = name ++ " is a shell builtin" :=
  ⟨rfl, by unfold typeMessage; rw [if_pos h]⟩

theorem builtin_table_exact_witness :
    BUILTIN_COMMANDS = ["exit", "echo", "type", "pwd", "cd"] ∧
    typeMessage (fun _ => none) "cd" = "cd is a shell builtin" :=
  builtin_table_exact (fun _ => none) "cd" (by decide)

/-- Claim C4: overwrite-mode target preparation truncates the target to a
zero-byte file before any output is produced (a command that writes nothing
still leaves the empty file, as `type` with no operand shows), append-mode
preparation touches nothing, and the two `echo` lines leave
`out.txt` containing exactly `hello\nworld\n`. -/
theorem overwrite_truncates_append_preserves :
    (∀ (fs : FS) (tgt : String), dirname tgt = "" →
      getEntry fs tgt ≠ some FSEntry.dir →
      prepareTargets fs (some ⟨tgt, false⟩) none =
        PrepResult.ok (setEntry fs tgt (FSEntry.file ""))) ∧
    (∀ (fs : FS) (tgt : String), dirname tgt = "" →
      prepareTargets fs (some ⟨tgt, true⟩) none = PrepResult.ok fs) ∧
    processLine (fun _ => none) "/root" none "type > out.txt" ⟨[], "/"⟩ =
      (⟨[("out.txt", FSEntry.file "")], "/"⟩, Outcome.cont []) ∧
    processLine (fun _ => none) "/root" none "echo world >> out.txt"
        (processLine (fun _ => none) "/root" none "echo hello > out.txt"
          ⟨[], "/"⟩).1 =
      (⟨[("out.txt", FSEntry.file "hello\nworld\n")], "/"⟩, Outcome.cont []) := by
  refine ⟨?_, ?_, rfl, rfl⟩
  · intro fs tgt h hd
    cases hg : getEntry fs tgt with
    | none => simp [prepareTargets, prepareOne, openFileFS, h, hg]
    | some e =>
      cases e with
      | dir => exact absurd hg hd
      | file c => simp [prepareTargets, prepareOne, openFileFS, h, hg]
  · intro fs tgt h
    simp [prepareTargets, prepareOne, h]

theorem overwrite_truncates_witness :
    prepareTargets [("out.txt", FSEntry.file "x")] (some ⟨"out.txt", false⟩) none =
      PrepResult.ok [("out.txt", FSEntry.file "")] ∧
    prepareTargets [("out.txt", FSEntry.file "x")] (some ⟨"out.txt", true⟩) none =
      PrepResult.ok [("out.txt", FSEntry.file "x")] :=
  ⟨overwrite_truncates_append_preserves.1 [("out.txt", FSEntry.file "x")]
      "out.txt" rfl (by decide),
   overwrite_truncates_append_preserves.2.1 [("out.txt", FSEntry.file "x")]
      "out.txt" rfl⟩

/-- Claim C5, counterexample: the claim says a line reduced to zero tokens
still prepares its redirection targets; on this code `> out.txt` from an
empty filesystem leaves the filesystem empty — the empty-command check
(`if not parts: continue`) runs before the file-and-directory setup, so
`out.txt` is never created. -/
theorem empty_command_counterexample :
    processLine (fun _ => none) "/root" none "> out.txt" ⟨[], "/"⟩ =
      (⟨[], "/"⟩, Outcome.cont []) ∧
    getEntry (processLine (fun _ => none) "/root" none "> out.txt"
        ⟨[], "/"⟩).1.fs "out.txt" = none :=
  ⟨rfl, rfl⟩

/-- Claim C5, amended: every line whose tokens are consumed entirely by
redirection extraction (zero command tokens remain) is a complete no-op —
no command runs, nothing is printed, and the state (filesystem included)
is unchanged, for any resolver, home directory and spawn behaviour —
because the zero-token check precedes target preparation. -/
theorem empty_command_no_sideeffects (resolve : String → Option String)
    (home : String) (spawnErr : Option String) (line : String) (st : ShellSt)
    (parts0 : List String) (outR errR : Option Redir)
    (hc : pyStrip line ≠ "")
    (ht : shlexSplit (pyStrip line) = .ok parts0)
    (hne : parts0 ≠ [])
    (he : extractRedirections parts0 = .ok [] outR errR) :
    processLine resolve home spawnErr line st = (st, Outcome.cont []) := by
  cases parts0 with
  | nil => exact absurd rfl hne
  | cons c cs => simp [processLine, hc, ht, he]

theorem empty_command_no_sideeffects_witness :
    processLine (fun _ => none) "/root" none "> out.txt" ⟨[], "/"⟩ =
      (⟨[], "/"⟩, Outcome.cont []) :=
  empty_command_no_sideeffects (fun _ => none) "/root" none "> out.txt"
    ⟨[], "/"⟩ [">", "out.txt"] (some ⟨"out.txt", false⟩) none
    (by decide) rfl (by decide) rfl

/-- Claim C6, counterexample: the claim says every redirection file handle
is closed even when spawning fails; on this code a spawn failure after a
successful open skips the close calls (there is no `finally`), leaving the
stdout handle open. -/
theorem launcher_leak_counterexample :
    runExternalProgram [] "foo" (some ⟨"f", false⟩) none (some "boom") =
      ⟨[("f", FSEntry.file "")], ["Error executing foo: boom"],
        true, false, false, false⟩ ∧
    (runExternalProgram [] "foo" (some ⟨"f", false⟩) none
        (some "boom")).openedOut = true ∧
    (runExternalProgram [] "foo" (some ⟨"f", false⟩) none
        (some "boom")).closedOut = false :=
  ⟨rfl, rfl, rfl⟩

/-- Claim C6, amended: a failure to spawn is reported as
`Error executing <name>: <reason>` on the shell's own output, and the
redirection handles are closed when the child runs to completion; but when
spawning fails the close calls are skipped, so already-opened handles stay
open. -/
theorem launcher_closes_and_leaks :
    (∀ (fs : FS) (cmd : String),
      runExternalProgram fs cmd none none none =
        ⟨fs, [], false, false, false, false⟩) ∧
    (∀ (fs : FS) (cmd : String) (ro : Redir) (fs1 : FS),
      openFileFS fs ro.target ro.append = .ok fs1 →
      runExternalProgram fs cmd (some ro) none none =
        ⟨fs1, [], true, false, true, false⟩) ∧
    (∀ (fs : FS) (cmd : String) (re : Redir) (fs1 : FS),
      openFileFS fs re.target re.append = .ok fs1 →
      runExternalProgram fs cmd none (some re) none =
        ⟨fs1, [], false, true, false, true⟩) ∧
    (∀ (fs : FS) (cmd : String) (ro re : Redir) (fs1 fs2 : FS),
      openFileFS fs ro.target ro.append = .ok fs1 →
      openFileFS fs1 re.target re.append = .ok fs2 →
      runExternalProgram fs cmd (some ro) (some re) none =
        ⟨fs2, [], true, true, true, true⟩) ∧
    (∀ (fs : FS) (cmd : String) (ro : Redir) (reason : String) (fs1 : FS),
      openFileFS fs ro.target ro.append = .ok fs1 →
      runExternalProgram fs cmd (some ro) none (some reason) =
        ⟨fs1, ["Error executing " ++ cmd ++ ": " ++ reason],
          true, false, false, false⟩) := by
  refine ⟨fun fs cmd => rfl, ?_, ?_, ?_, ?_⟩ <;>
    intros <;> simp [runExternalProgram, *]

theorem launcher_closes_witness :
    runExternalProgram [] "x" (some ⟨"g", false⟩) none none =
      ⟨[("g", FSEntry.file "")], [], true, false, true, false⟩ :=
  launcher_closes_and_leaks.2.1 [] "x" ⟨"g", false⟩ [("g", FSEntry.file "")] rfl

/-- Claim C7, counterexample: the claim says the third consecutive
completion request behaves like the first and rings the bell; on this code
the third call of the display hook writes nothing at all — it only resets
the counter — and only the fourth call rings the bell again. -/
theorem third_tab_counterexample :
    display_matches_hook ["baz", "foo"] "f" 0 = (1, ["\x07"]) ∧
    display_matches_hook ["baz", "foo"] "f" 1 =
      (2, ["\n", "baz  foo\n", "$ f"]) ∧
    display_matches_hook ["baz", "foo"] "f" 2 = (0, []) ∧
    ((display_matches_hook ["baz", "foo"] "f" 2).2 = ["\x07"] → False) :=
  ⟨rfl, rfl, rfl, by decide⟩

/-- Claim C7, amended: with the candidate set (always sorted) ambiguous and
not extendable, the first hook call rings the bell, the second prints a
newline, the two-space-joined candidates and the prompt with the current
completion text, the third prints nothing and resets the counter, and the
fourth — the next request after the reset — rings the bell like the
first. -/
theorem tab_protocol (externals : List String) (t : String)
    (ms : List String) (lt : String) :
    List.Sorted strLeP (shell_completer_matches externals t) ∧
    display_matches_hook ms lt 0 = (1, ["\x07"]) ∧
    display_matches_hook ms lt 1 =
      (2, ["\n", String.intercalate "  " ms ++ "\n", "$ " ++ lt]) ∧
    display_matches_hook ms lt 2 = (0, []) ∧
    display_matches_hook ms lt
        (display_matches_hook ms lt 2).1 = (1, ["\x07"]) := by
  refine ⟨?_, rfl, rfl, rfl, rfl⟩
  exact List.sorted_insertionSort strLeP _

/-- Claim C8: the unterminated-quote parse failure aborts only the current
line (an error is printed, nothing is dispatched, the loop continues), as
the first conjunct shows — but the second conjunct is the divergence: the
`echo` builtin's redirected `open` is not wrapped in any `try`, so
`echo hi >> d` against an existing directory `d` raises an uncaught
`IsADirectoryError` that terminates the shell, contradicting the claim
that no error except `exit`/end-of-input does. -/
theorem error_category_divergence :
    processLine (fun _ => none) "/root" none "echo \x27abc" ⟨[], "/"⟩ =
      (⟨[], "/"⟩, Outcome.cont ["Error parsing command: No closing quotation"]) ∧
    processLine (fun _ => none) "/root" none "echo hi >> d"
        ⟨[("d", FSEntry.dir)], "/"⟩ =
      (⟨[("d", FSEntry.dir)], "/"⟩, Outcome.crash "IsADirectoryError: d") :=
  ⟨rfl, rfl⟩

/-- Claim C9: on a well-formed line none of whose tokens is a redirection
operator, extraction returns the token list unchanged and produces no
`RedirectionSpec`. -/
theorem no_ops_extraction_identity (line : String) (parts : List String)
    (_htok : shlexSplit line = .ok parts)
    (hops : ∀ t ∈ parts, t ∉ redirOps) :
    extractRedirections parts = .ok parts none none := by
  have h1 : "2>>" ∉ parts := fun hm => hops _ hm (by decide)
  have h2 : "2>" ∉ parts := fun hm => hops _ hm (by decide)
  have h3 : ">>" ∉ parts := fun hm => hops _ hm (by decide)
  have h4 : "1>>" ∉ parts := fun hm => hops _ hm (by decide)
  have h5 : ">" ∉ parts := fun hm => hops _ hm (by decide)
  have h6 : "1>" ∉ parts := fun hm => hops _ hm (by decide)
  simp [extractRedirections, scanStderr, scanStdout, h1, h2, h3, h4, h5, h6,
    sortDesc, popAll]

theorem no_ops_extraction_witness :
    extractRedirections ["echo", "hi"] = .ok ["echo", "hi"] none none :=
  no_ops_extraction_identity "echo hi" ["echo", "hi"] rfl (by decide)

/-- Claim C10: quote removal happens before redirection extraction, so a
quoted or escaped `>` still becomes the bare token `>` and is consumed,
with the following token, as a redirection pair: `echo \x27>\x27 f` (and
`echo \> f`) tokenizes to `echo`, `>`, `f`, extraction leaves the command
`echo` with a stdout overwrite to `f`, and running the line writes to `f`
instead of passing `>` and `f` to `echo` as arguments. -/
theorem quoted_operator_still_redirects :
    shlexSplit "echo \x27>\x27 f" = .ok ["echo", ">", "f"] ∧
    shlexSplit "echo \\> f" = .ok ["echo", ">", "f"] ∧
    extractRedirections ["echo", ">", "f"] =
      .ok ["echo"] (some ⟨"f", false⟩) none ∧
    processLine (fun _ => none) "/root" none "echo \x27>\x27 f" ⟨[], "/"⟩ =
      (⟨[("f", FSEntry.file "\n")], "/"⟩, Outcome.cont []) :=
  ⟨rfl, rfl, rfl, rfl⟩

/-- Characterization of the stderr scan: an append-mode result is produced
exactly when `2>>` occurs, and any result exactly when `2>>` or `2>`
occurs. -/
theorem scanStderr_ok (parts : List String) (o : Option (Nat × Redir))
    (h : scanStderr parts = .ok o) :
    ((∃ i r, o = some (i, r) ∧ r.append = true) ↔ "2>>" ∈ parts) ∧
    (o.isSome ↔ ("2>>" ∈ parts ∨ "2>" ∈ parts)) := by
  unfold scanStderr at h
  by_cases h1 : "2>>" ∈ parts
  · rw [if_pos h1] at h
    by_cases h1b : parts.indexOf "2>>" + 1 < parts.length
    · rw [if_pos h1b] at h
      injection h with h
      subst h
      constructor
      · exact ⟨fun _ => h1, fun _ => ⟨_, _, rfl, rfl⟩⟩
      · simp [h1]
    · rw [if_neg h1b] at h
      exact absurd h (by simp)
  · rw [if_neg h1] at h
    by_cases h2 : "2>" ∈ parts
    · rw [if_pos h2] at h
      by_cases h2b : parts.indexOf "2>" + 1 < parts.length
      · rw [if_pos h2b] at h
        injection h with h
        subst h
        constructor
        · simp [h1]
        · simp [h1, h2]
      · rw [if_neg h2b] at h
        exact absurd h (by simp)
    · rw [if_neg h2] at h
      injection h with h
      subst h
      simp [h1, h2]

/-- Characterization of the stdout scan: an append-mode result is produced
exactly when `>>` or `1>>` occurs, and any result exactly when one of the
four stdout operators occurs. -/
theorem scanStdout_ok (parts : List String) (o : Option (Nat × Redir))
    (h : scanStdout parts = .ok o) :
    ((∃ i r, o = some (i, r) ∧ r.append = true) ↔
      (">>" ∈ parts ∨ "1>>" ∈ parts)) ∧
    (o.isSome ↔ (">>" ∈ parts ∨ "1>>" ∈ parts ∨ ">" ∈ parts ∨ "1>" ∈ parts)) := by
  unfold scanStdout at h
  by_cases h1 : ">>" ∈ parts ∨ "1>>" ∈ parts
  · rw [if_pos h1] at h
    by_cases h1b : (if "1>>" ∈ parts then parts.indexOf "1>>" else parts.indexOf ">>") + 1 < parts.length
    · rw [if_pos h1b] at h
      injection h with h
      subst h
      constructor
      · exact ⟨fun _ => h1, fun _ => ⟨_, _, rfl, rfl⟩⟩
      · simp only [Option.isSome_some, true_iff]
        exact h1.elim Or.inl fun hx => Or.inr (Or.inl hx)
    · rw [if_neg h1b] at h
      exact absurd h (by simp)
  · rw [if_neg h1] at h
    by_cases h2 : ">" ∈ parts ∨ "1>" ∈ parts
    · rw [if_pos h2] at h
      by_cases h2b : (if "1>" ∈ parts then parts.indexOf "1>" else parts.indexOf ">") + 1 < parts.length
      · rw [if_pos h2b] at h
        injection h with h
        subst h
        constructor
        · simp [h1]
        · push_neg at h1
          simp [h1.1, h1.2]
          exact h2
      · rw [if_neg h2b] at h
        exact absurd h (by simp)
    · rw [if_neg h2] at h
      injection h with h
      subst h
      push_neg at h1
      push_neg at h2
      simp [h1.1, h1.2, h2.1, h2.2]

theorem removalPairs_length (o : Option (Nat × Redir)) :
    (removalPairs o).length = if o.isSome then 2 else 0 := by
  cases o with
  | none => rfl
  | some p => cases p with | mk i r => rfl

/-- Claim C3, counterexample: the claim says only the first occurrence of
each operator class (stdout vs stderr) is honored and no operator token
reaches the dispatched Command; on tokens `echo >> a 1>> b` the extractor
honors `1>>` (which occurs after the class's first occurrence `>>`) with
target `b`, and the unmatched `>>` and `a` remain in the command tokens. -/
theorem extractor_first_occurrence_counterexample :
    extractRedirections ["echo", ">>", "a", "1>>", "b"] =
      .ok ["echo", ">>", "a"] (some ⟨"b", true⟩) none ∧
    (">>" ∈ (["echo", ">>", "a"] : List String)) ∧
    (["echo", ">>", "a", "1>>", "b"].indexOf ">>" <
      ["echo", ">>", "a", "1>>", "b"].indexOf "1>>") :=
  ⟨rfl, by decide, by decide⟩

/-- Claim C3, amended: the extractor scans in the fixed precedence `2>>`
before `2>`, and `>>`/`1>>` (append) before `>`/`1>` (overwrite), with
`1>>` preferred over `>>` and `1>` preferred over `>` when both appear; at
most one occurrence per stream class is honored — the first occurrence of
the preferred operator present, not necessarily the first occurrence of
the class — and exactly the honored operator+target pairs are removed
before the command name is taken, unmatched operator tokens of the same
class remaining in the command tokens.  Formally: for every successful
extraction, the stderr spec exists iff `2>>` or `2>` occurs and is
append-mode iff `2>>` occurs; the stdout spec exists iff one of
`>>`/`1>>`/`>`/`1>` occurs and is append-mode iff `>>` or `1>>` occurs;
two tokens are removed per honored spec; and the two concrete runs show
the preference of `1>>`/`2>>` over an earlier `>>`/`2>`. -/
theorem extractor_precedence :
    (∀ (parts cmdT : List String) (outR errR : Option Redir),
      extractRedirections parts = .ok cmdT outR errR →
      ((∃ r, errR = some r ∧ r.append = true) ↔ "2>>" ∈ parts) ∧
      (errR.isSome ↔ ("2>>" ∈ parts ∨ "2>" ∈ parts)) ∧
      ((∃ r, outR = some r ∧ r.append = true) ↔ (">>" ∈ parts ∨ "1>>" ∈ parts)) ∧
      (outR.isSome ↔ (">>" ∈ parts ∨ "1>>" ∈ parts ∨ ">" ∈ parts ∨ "1>" ∈ parts)) ∧
      cmdT.length +
          2 * ((if errR.isSome then 1 else 0) + (if outR.isSome then 1 else 0)) =
        parts.length) ∧
    extractRedirections ["echo", ">>", "a", "1>>", "b"] =
      .ok ["echo", ">>", "a"] (some ⟨"b", true⟩) none ∧
    extractRedirections ["a", "2>", "f", "2>>", "g"] =
      .ok ["a", "2>", "f"] none (some ⟨"g", true⟩) := by
  refine ⟨?_, rfl, rfl⟩
  intro parts cmdT outR errR h
  unfold extractRedirections at h
  cases hs : scanStderr parts with
  | error msg => rw [hs] at h; simp at h
  | ok errScan =>
    rw [hs] at h
    cases ho : scanStdout parts with
    | error msg => rw [ho] at h; simp at h
    | ok outScan =>
      rw [ho] at h
      dsimp only at h
      cases hp : popAll parts (sortDesc (removalPairs errScan ++ removalPairs outScan)) with
      | none => rw [hp] at h; simp at h
      | some remaining =>
        rw [hp] at h
        simp only [ExtractResult.ok.injEq] at h
        obtain ⟨hc, hout, herr⟩ := h
        subst hc
        subst hout
        subst herr
        have hse := scanStderr_ok parts errScan hs
        have hso := scanStdout_ok parts outScan ho
        have hlen := popAll_length _ _ _ hp
        rw [sortDesc_length, List.length_append, removalPairs_length,
          removalPairs_length] at hlen
        refine ⟨?_, ?_, ?_, ?_, ?_⟩
        · rw [← hse.1]
          cases errScan with
          | none => simp
          | some p =>
            cases p with
            | mk i r0 =>
              simp
              constructor
              · intro ha
                exact ⟨i, r0, ⟨rfl, rfl⟩, ha⟩
              · rintro ⟨i2, r2, ⟨hi, hr⟩, ha⟩
                rw [hr]
                exact ha
        · rw [← hse.2]
          cases errScan <;> simp
        · rw [← hso.1]
          cases outScan with
          | none => simp
          | some p =>
            cases p with
            | mk i r0 =>
              simp
              constructor
              · intro ha
                exact ⟨i, r0, ⟨rfl, rfl⟩, ha⟩
              · rintro ⟨i2, r2, ⟨hi, hr⟩, ha⟩
                rw [hr]
                exact ha
        · rw [← hso.2]
          cases outScan <;> simp
        · cases errScan <;> cases outScan <;> simp at hlen ⊢ <;> omega

theorem extractor_precedence_witness :
    (["echo", "hi"] : List String).length +
        2 * ((if (none : Option Redir).isSome then 1 else 0) +
          (if (some (⟨"f", false⟩ : Redir)).isSome then 1 else 0)) =
      (["echo", "hi", ">", "f"] : List String).length :=
  (extractor_precedence.1 ["echo", "hi", ">", "f"] ["echo", "hi"]
      (some ⟨"f", false⟩) none rfl).2.2.2.2
